import Mathlib

/-!
# TechDraw::DrawPage

A shallow embedding of `src/Mod/TechDraw/App/DrawPage.cpp`.

* Object pointers are object identifiers (`ObjId`); a nullable pointer is an `Option ObjId`.
* The document is an explicit heap `objs : ObjId → DocumentObject`.
* The `double` values that the source only copies, halves or compares with zero (positions,
  template sizes) are rationals. The scales, whose difference the source rounds and compares
  with a tolerance, are IEEE 754 binary64 values (`Double`), with the infinities and NaN.
* `int` values are integers with an explicit 32-bit wrap where the source computes on them.
* `none` as the result of `removeView` stands for undefined behaviour: a null C string handed
  to `std::string`.
* A thrown `Base::RuntimeError` is `Except.error` with the message.
* Calls into other classes whose bodies are not part of this file (`recomputeFeature`,
  `overrideKeepUpdated`, `checkScale`, ...) are recorded, in order, in a call log.
* A write to a property of the page notifies the page through `onChanged`, as the property
  framework does; a write to a property of another object is the field update alone.
-/

namespace TechDraw

/-- Object pointer: the identifier of an object of the document graph. -/
abbrev ObjId := Nat

/-- Modelled from the spec: the class declarations (`App/Link.h`, `DrawView.h`, `DrawViewPart.h`,
`DrawProjGroup.h`, `DrawViewDimension.h`, `DrawViewBalloon.h`, `DrawTemplate.h`) are missing; these
are the classes that `DrawPage.cpp` names. Views (projections, groups, dimensions, balloons) are
`DrawView`s; part views are the geometry-producing `DrawViewPart`s. -/
inductive TypeId
  | DocumentObject
  | Link
  | DrawTemplate
  | DrawPage
  | DrawView
  | DrawViewPart
  | DrawProjGroupItem
  | DrawProjGroup
  | DrawViewDimension
  | DrawViewBalloon
  deriving DecidableEq, Repr

/-- Modelled from the spec: the class itself followed by its base classes (the missing class
declarations). Intermediate classes that `DrawPage.cpp` never names are left out. -/
def TypeId.bases : TypeId → List TypeId
  | .DocumentObject => [.DocumentObject]
  | .Link => [.Link, .DocumentObject]
  | .DrawTemplate => [.DrawTemplate, .DocumentObject]
  | .DrawPage => [.DrawPage, .DocumentObject]
  | .DrawView => [.DrawView, .DocumentObject]
  | .DrawViewPart => [.DrawViewPart, .DrawView, .DocumentObject]
  | .DrawProjGroupItem => [.DrawProjGroupItem, .DrawViewPart, .DrawView, .DocumentObject]
  | .DrawProjGroup => [.DrawProjGroup, .DrawView, .DocumentObject]
  | .DrawViewDimension => [.DrawViewDimension, .DrawView, .DocumentObject]
  | .DrawViewBalloon => [.DrawViewBalloon, .DrawView, .DocumentObject]

/-- The test `obj->isDerivedFrom<T>()` on the dynamic type of an object. -/
def TypeId.isDerivedFrom (t T : TypeId) : Bool :=
  decide (T ∈ t.bases)

/-! ## The type `double` -/

/-- A value of the type `double` (IEEE 754 binary64): a finite value, given by the rational it
denotes, an infinity, or not-a-number. The sign of zero and the payload of a NaN, which nothing
in `DrawPage.cpp` can observe, are not kept. Of a rational `q` that a double holds exactly,
`Double.roundNearest q = finite q`. -/
inductive Double
  | finite (q : ℚ)
  | posInf
  | negInf
  | nan
  deriving DecidableEq

/-- The largest finite double, (2 − 2⁻⁵²)·2¹⁰²³, as a rational. -/
def Double.maxFinite : ℚ := 2 ^ 1024 - 2 ^ 971

/-- The number of binary digits of `n`, found in at most `fuel` halvings. -/
def Double.bitLength : Nat → Nat → Nat
  | 0, _ => 0
  | fuel + 1, n => if n = 0 then 0 else Double.bitLength fuel (n / 2) + 1

/-- The integer ⌊log₂ |a|⌋ of a rational `a ≠ 0`: the difference of the digit counts of
numerator and denominator, or one less. -/
def Double.floorLog2 (a : ℚ) : Int :=
  let e0 : Int := (Double.bitLength a.num.natAbs a.num.natAbs : Int)
    - (Double.bitLength a.den a.den : Int)
  if (2 : ℚ) ^ e0 ≤ |a| then e0 else e0 - 1

/-- The integer nearest to `t`, the even one of the two when `t` lies halfway. -/
def Double.roundHalfEven (t : ℚ) : Int :=
  let n := ⌊t⌋
  let f := t - n
  if f < 1 / 2 then n
  else if 1 / 2 < f then n + 1
  else if n % 2 = 0 then n else n + 1

/-- Rounding of an exact result to the nearest double, ties to even: 53 significant bits, no
bit below 2⁻¹⁰⁷⁴, and an infinity when the rounded magnitude exceeds the largest finite
double. -/
def Double.roundNearest (q : ℚ) : Double :=
  if q = 0 then .finite 0
  else
    let ulp : ℚ := 2 ^ max (Double.floorLog2 q - 52) (-1074)
    let r : ℚ := (Double.roundHalfEven (q / ulp) : ℚ) * ulp
    if Double.maxFinite < |r| then (if 0 < q then .posInf else .negInf) else .finite r

/-- The subtraction `a - b` of doubles. -/
def Double.sub : Double → Double → Double
  | .nan, _ => .nan
  | _, .nan => .nan
  | .posInf, .posInf => .nan
  | .negInf, .negInf => .nan
  | .posInf, _ => .posInf
  | .negInf, _ => .negInf
  | .finite _, .posInf => .negInf
  | .finite _, .negInf => .posInf
  | .finite x, .finite y => Double.roundNearest (x - y)

/-- The call `std::abs(a)` on a double. -/
def Double.abs : Double → Double
  | .nan => .nan
  | .posInf => .posInf
  | .negInf => .posInf
  | .finite x => .finite |x|

/-- The comparison `a < b` of doubles, false when either side is not a number. -/
def Double.lt : Double → Double → Bool
  | .nan, _ => false
  | _, .nan => false
  | .finite x, .finite y => decide (x < y)
  | .finite _, .posInf => true
  | .finite _, .negInf => false
  | .negInf, .negInf => false
  | .negInf, _ => true
  | .posInf, _ => false

/-- The comparison `a <= b` of doubles, false when either side is not a number. -/
def Double.le : Double → Double → Bool
  | .nan, _ => false
  | _, .nan => false
  | .finite x, .finite y => decide (x ≤ y)
  | .finite _, .posInf => true
  | .finite _, .negInf => false
  | .negInf, _ => true
  | .posInf, .posInf => true
  | .posInf, _ => false

/-! ## Objects, page, document -/

/-- What `DrawPage.cpp` reads from, or writes to, an object of the document. One record serves
every class; a field that a class does not have is simply never read for it. -/
structure DocumentObject where
  /-- dynamic type -/
  typeId : TypeId := .DocumentObject
  /-- `getDocument()`, null when the object belongs to no document -/
  document : Option Nat := some 0
  /-- `isAttachedToDocument()` -/
  attached : Bool := true
  /-- the name that the object bears in its document while it is attached -/
  nameInDocument : String := ""
  /-- `getInList()`: the objects that reference this one; entries may be null -/
  inList : List (Option ObjId) := []
  /-- `App::Link::getLinkedObject()` -/
  linkedObject : ObjId := 0
  /-- `DrawView::X` -/
  X : ℚ := 0
  /-- `DrawView::Y` -/
  Y : ℚ := 0
  /-- `DrawView::Scale` -/
  Scale : Double := .finite 1
  /-- `DrawView::ScaleType`, as its text -/
  ScaleType : String := "Page"
  /-- `DrawView::claimParent()` -/
  claimParent : Option ObjId := none
  /-- `DrawProjGroup::Views` -/
  Views : List ObjId := []
  /-- `DrawProjGroup::ProjectionType`, as its text -/
  ProjectionType : String := "Default"
  /-- `DrawTemplate::getWidth()` -/
  Width : ℚ := 0
  /-- `DrawTemplate::getHeight()` -/
  Height : ℚ := 0
  /-- `DrawTemplate::Orientation.getValue()` -/
  Orientation : Int := 0
  /-- `DrawTemplate::Orientation.getValueAsString()` -/
  OrientationText : String := ""

instance : Inhabited DocumentObject := ⟨{}⟩

/-- Modelled from the spec: `App::DocumentObject` is not among the sources.
`getNameInDocument()` gives the name of an object that is attached to a document and null for
one that is not; lines 295 and 434–435 guard it with `isAttachedToDocument()` for that reason. -/
def DocumentObject.getNameInDocument (d : DocumentObject) : Option String :=
  if d.attached then some d.nameInDocument else none

/-- The properties and flags of the page itself. -/
structure DrawPage where
  KeepUpdated : Bool
  Template : Option ObjId
  Views : List ObjId
  ProjectionType : Int
  Scale : Double
  NextBalloonIndex : Int
  nowUnsetting : Bool
  /-- `isRestoring()` -/
  restoring : Bool

/-- The properties of the page that `onChanged` and `handleChangedPropertyType` tell apart;
`Label` stands for any property they do not name. -/
inductive Property
  | KeepUpdated
  | Template
  | Views
  | ProjectionType
  | Scale
  | NextBalloonIndex
  | Label
  deriving DecidableEq, Repr

/-- A call that leaves this file. -/
inductive Call
  | recomputeFeature (o : ObjId)
  | overrideKeepUpdated (o : ObjId) (b : Bool)
  | checkScale (o : ObjId)
  | touchProjectionType (o : ObjId)
  | purgeTouched
  deriving DecidableEq, Repr

/-- The page, the object graph around it, and the log of the calls issued so far. -/
structure Doc where
  page : DrawPage
  objs : ObjId → DocumentObject
  calls : List Call

/-- Append one call to the log. -/
def Doc.call (s : Doc) (c : Call) : Doc :=
  { s with calls := s.calls ++ [c] }

/-- Write through a pointer: replace the record of object `o`. -/
def Doc.setObj (s : Doc) (o : ObjId) (d : DocumentObject) : Doc :=
  { s with objs := Function.update s.objs o d }

/-- The cast `freecad_cast<T*>(obj)`: the pointer itself when it is not null and the object is
derived from `T`, null otherwise. -/
def freecad_cast (objs : ObjId → DocumentObject) (T : TypeId) (obj : Option ObjId) :
    Option ObjId :=
  match obj with
  | none => none
  | some o => if (objs o).typeId.isDerivedFrom T then some o else none

/-! ## getViews / getAllViews -/

/-- Inner loop of `getViews` (lines 385–389): one in-list entry. -/
def getViewsChild (objs : ObjId → DocumentObject) (allViews : List ObjId)
    (dep : Option ObjId) : List ObjId :=
  match dep with
  | none => allViews
  | some d =>
    if (objs d).typeId.isDerivedFrom .DrawView then allViews ++ [d] else allViews

/-- Body of the loop of `getViews` (lines 368–391) for one entry `v` of `Views`. -/
def getViewsBody (objs : ObjId → DocumentObject) (allViews : List ObjId) (v : ObjId) :
    List ObjId :=
  let isLink := (objs v).typeId.isDerivedFrom .Link
  let v := if isLink then (objs v).linkedObject else v
  let addChildren := isLink
  if !(objs v).typeId.isDerivedFrom .DrawView then
    allViews
  else
    let allViews := allViews ++ [v]
    if addChildren then
      (objs v).inList.foldl (getViewsChild objs) allViews
    else
      allViews

/-- The method `DrawPage::getViews` (lines 364–393). -/
def getViews (s : Doc) : List ObjId :=
  s.page.Views.foldl (getViewsBody s.objs) []

/-- Body of the loop of `getAllViews` (lines 399–416) for one entry `v` of `Views`. -/
def getAllViewsBody (objs : ObjId → DocumentObject) (allViews : List ObjId) (v : ObjId) :
    List ObjId :=
  let v := if (objs v).typeId.isDerivedFrom .Link then (objs v).linkedObject else v
  if !(objs v).typeId.isDerivedFrom .DrawView then
    allViews
  else
    let allViews := allViews ++ [v]
    if (objs v).typeId.isDerivedFrom .DrawProjGroup then
      let pgViews := (objs v).Views
      allViews ++ pgViews
    else
      allViews

/-- The method `DrawPage::getAllViews` (lines 395–418). -/
def getAllViews (s : Doc) : List ObjId :=
  s.page.Views.foldl (getAllViewsBody s.objs) []

/-! ## updateAllViews -/

/-- Body of the first loop of `updateAllViews` (lines 341–347). -/
def updatePartsBody (s : Doc) (v : ObjId) : Doc :=
  match freecad_cast s.objs .DrawViewPart (some v) with
  | some part => s.call (.recomputeFeature part)
  | none => s

/-- Body of the second loop of `updateAllViews` (lines 350–361). -/
def updateRestBody (s : Doc) (v : ObjId) : Doc :=
  match freecad_cast s.objs .DrawViewPart (some v) with
  | some _ => s
  | none =>
    match freecad_cast s.objs .DrawView (some v) with
    | some view => (s.call (.overrideKeepUpdated view true)).call (.recomputeFeature view)
    | none => s

/-- The method `DrawPage::updateAllViews` (lines 334–362). -/
def updateAllViews (s : Doc) : Doc :=
  let featViews := getAllViews s
  let s := featViews.foldl updatePartsBody s
  featViews.foldl updateRestBody s

/-! ## onChanged -/

/-- The constant `std::numeric_limits<float>::epsilon()`, which is 2⁻²³, as the double that the
comparison of line 121 converts it to. -/
def floatEpsilon : Double := .finite (1 / 8388608)

/-- The test of line 121: `std::abs(viewScale - pageScale) > epsilon`, in double arithmetic. -/
def scaleDiffers (viewScale pageScale : Double) : Bool :=
  Double.lt floatEpsilon (Double.abs (Double.sub viewScale pageScale))

/-- Body of the loop of the `Scale` branch of `onChanged` (lines 118–125). -/
def scaleTouchBody (s : Doc) (obj : ObjId) : Doc :=
  match freecad_cast s.objs .DrawView (some obj) with
  | some view =>
    if (s.objs view).ScaleType = "Page" then
      if scaleDiffers (s.objs view).Scale s.page.Scale then
        s.setObj view { s.objs view with Scale := s.page.Scale }
      else
        s
    else
      s
  | none => s

/-- Body of the loop of the `ProjectionType` branch of `onChanged` (lines 130–135). -/
def projectionTouchBody (s : Doc) (obj : ObjId) : Doc :=
  match freecad_cast s.objs .DrawProjGroup (some obj) with
  | some view =>
    if (s.objs view).ProjectionType = "Default" then
      s.call (.touchProjectionType view)
    else
      s
  | none => s

/-- The method `DrawPage::onChanged` (lines 97–140), up to the closing call of the base class.
Console output is not modelled. -/
def onChanged (s : Doc) (prop : Property) : Doc :=
  if prop = .KeepUpdated ∧ s.page.KeepUpdated = true then
    if !s.page.restoring && !s.page.nowUnsetting then
      (updateAllViews s).call .purgeTouched
    else
      s
  else if prop = .Template then
    s
  else if prop = .Scale then
    if !s.page.restoring then
      (getViews s).foldl scaleTouchBody s
    else
      s
  else if prop = .ProjectionType then
    (getViews s).foldl projectionTouchBody s
  else
    s

/-- The call `Views.setValues(vs)`: the write, then the notification of the page. -/
def setViews (s : Doc) (vs : List ObjId) : Doc :=
  onChanged { s with page := { s.page with Views := vs } } .Views

/-- The call `Scale.setValue(x)`: the write, then the notification of the page. -/
def setScale (s : Doc) (x : Double) : Doc :=
  onChanged { s with page := { s.page with Scale := x } } .Scale

/-- The call `NextBalloonIndex.setValue(n)`: the write, then the notification of the page. -/
def setNextBalloonIndex (s : Doc) (n : Int) : Doc :=
  onChanged { s with page := { s.page with NextBalloonIndex := n } } .NextBalloonIndex

/-! ## Template access -/

/-- Message of the `Base::RuntimeError` that the page getters throw. -/
def templateNotSet : String := "Template not set for Page"

/-- The method `DrawPage::hasValidTemplate` (lines 171–184). -/
def hasValidTemplate (s : Doc) : Bool :=
  match s.page.Template with
  | some obj =>
    if (s.objs obj).typeId.isDerivedFrom .DrawTemplate then
      if (s.objs obj).Width > 0 ∧ (s.objs obj).Height > 0 then true else false
    else
      false
  | none => false

/-- The method `DrawPage::getPageWidth` (lines 186–196). -/
def getPageWidth (s : Doc) : Except String ℚ :=
  match s.page.Template with
  | some obj =>
    if (s.objs obj).typeId.isDerivedFrom .DrawTemplate then
      .ok (s.objs obj).Width
    else
      .error templateNotSet
  | none => .error templateNotSet

/-- The method `DrawPage::getPageHeight` (lines 198–208). -/
def getPageHeight (s : Doc) : Except String ℚ :=
  match s.page.Template with
  | some obj =>
    if (s.objs obj).typeId.isDerivedFrom .DrawTemplate then
      .ok (s.objs obj).Height
    else
      .error templateNotSet
  | none => .error templateNotSet

/-- The method `DrawPage::getPageOrientation` (lines 211–221): the orientation as text. -/
def getPageOrientation (s : Doc) : Except String String :=
  match s.page.Template with
  | some obj =>
    if (s.objs obj).typeId.isDerivedFrom .DrawTemplate then
      .ok (s.objs obj).OrientationText
    else
      .error templateNotSet
  | none => .error templateNotSet

/-- The method `DrawPage::getOrientation` (lines 224–233): the orientation as a number. -/
def getOrientation (s : Doc) : Except String Int :=
  match s.page.Template with
  | some obj =>
    if (s.objs obj).typeId.isDerivedFrom .DrawTemplate then
      .ok (s.objs obj).Orientation
    else
      .error templateNotSet
  | none => .error templateNotSet

/-! ## addView / removeView -/

/-- Lines 242–254 of `addView`: the view behind `docObj`, null when there is none. -/
def addViewTarget (objs : ObjId → DocumentObject) (docObj : ObjId) : Option ObjId :=
  match freecad_cast objs .DrawView (some docObj) with
  | some view => some view
  | none =>
    match freecad_cast objs .Link (some docObj) with
    | none => none
    | some link => freecad_cast objs .DrawView (some (objs link).linkedObject)

/-- The condition of lines 257–260 of `addView`. -/
def addViewCentres (objs : ObjId → DocumentObject) (docObj view : ObjId)
    (setPosition : Bool) : Bool :=
  (objs view).claimParent.isNone
    && !(objs docObj).typeId.isDerivedFrom .DrawViewDimension
    && !(objs docObj).typeId.isDerivedFrom .DrawViewBalloon
    && setPosition

/-- Lines 261–262 of `addView`. -/
def addViewCentre (s : Doc) (view : ObjId) : Except String Doc := do
  let w ← getPageWidth s
  let s := s.setObj view { s.objs view with X := w / 2 }
  let h ← getPageHeight s
  pure (s.setObj view { s.objs view with Y := h / 2 })

/-- Lines 266–280 of `addView`. `checkFit` is `DrawView::checkFit(page)`, whose body is not part
of this file. -/
def addViewAppend (checkFit : Doc → ObjId → Bool) (s : Doc) (docObj view : ObjId) :
    Int × Doc :=
  let newViews := s.page.Views
  let newViews := newViews ++ [docObj]
  let s := setViews s newViews
  let s :=
    if !checkFit s view then
      s.setObj view { s.objs view with ScaleType := "Automatic" }
    else
      s
  let s := s.call (.checkScale view)
  ((s.page.Views.length : Int), s)

/-- The method `DrawPage::addView` (lines 235–281). -/
def addView (checkFit : Doc → ObjId → Bool) (s : Doc) (docObj : ObjId) (setPosition : Bool) :
    Except String (Int × Doc) :=
  if !(s.objs docObj).typeId.isDerivedFrom .DrawView
      && !(s.objs docObj).typeId.isDerivedFrom .Link then
    .ok (-1, s)
  else
    match addViewTarget s.objs docObj with
    | none => .ok (-1, s)
    | some view =>
      if addViewCentres s.objs docObj view setPosition then
        match addViewCentre s view with
        | .error e => .error e
        | .ok s => .ok (addViewAppend checkFit s docObj view)
      else
        .ok (addViewAppend checkFit s docObj view)

/-- Body of the loop of `removeView` (lines 299–309) for one entry `view` of `Views`: the new
list, or `none` when a null name reaches `std::string` (line 305 for the removed object, line 306
for the entry). -/
def removeViewBody (objs : ObjId → DocumentObject) (docObj : ObjId) (newViews : List ObjId)
    (view : ObjId) : Option (List ObjId) :=
  match (objs view).document with
  | none => some newViews
  | some _ =>
    match (objs docObj).getNameInDocument with
    | none => none
    | some viewName =>
      match (objs view).getNameInDocument with
      | none => none
      | some name => if viewName ≠ name then some (newViews ++ [view]) else some newViews

/-- The method `DrawPage::removeView` (lines 284–312). -/
def removeView (s : Doc) (docObj : ObjId) : Option (Int × Doc) :=
  if !(s.objs docObj).typeId.isDerivedFrom .DrawView
      && !(s.objs docObj).typeId.isDerivedFrom .Link then
    some (-1, s)
  else
    match (s.objs docObj).document with
    | none => some (-1, s)
    | some _ =>
      if !(s.objs docObj).attached then
        some (-1, s)
      else
        match s.page.Views.foldlM (removeViewBody s.objs docObj) [] with
        | none => none
        | some newViews =>
          let s := setViews s newViews
          some ((s.page.Views.length : Int), s)

/-! ## Balloon numbering -/

/-- Conversion to `int`: the value reduced to 32 bits, two's complement. -/
def toInt32 (x : Int) : Int :=
  (x + 2147483648) % 4294967296 - 2147483648

/-- The method `DrawPage::getNextBalloonIndex` (lines 457–463). -/
def getNextBalloonIndex (s : Doc) : Int × Doc :=
  let result := toInt32 s.page.NextBalloonIndex
  let newValue := toInt32 (result + 1)
  let s := setNextBalloonIndex s newValue
  (result, s)

/-- The results of `n` successive calls of `getNextBalloonIndex`, and the state after them. -/
def balloonIndices : Nat → Doc → List Int × Doc
  | 0, s => ([], s)
  | n + 1, s =>
    let r := getNextBalloonIndex s
    let rest := balloonIndices n r.2
    (r.1 :: rest.1, rest.2)

/-- The page as the constructor leaves it (lines 61–88); the three arguments are the values the
constructor reads from the preferences. -/
def DrawPage.new (keepPagesUpToDate : Bool) (projectionAngle : Int) (defScale : Double) :
    DrawPage :=
  { KeepUpdated := keepPagesUpToDate
    Template := none
    Views := []
    ProjectionType := projectionAngle
    Scale := defScale
    NextBalloonIndex := 1
    nowUnsetting := false
    restoring := false }

/-! ## Scale restore -/

/-- The record `App::PropertyFloatConstraint::Constraints`. -/
structure Constraints where
  LowerBound : Double
  UpperBound : Double
  StepSize : Double

/-- The OpenCASCADE constant `Precision::Confusion()`: the double nearest to 1e-7, which is
7555786372591432 · 2⁻⁷⁶. -/
def Precision.Confusion : Double := .finite (944473296573929 / 9444732965739290427392)

/-- The constant `std::numeric_limits<double>::max()`. -/
def doubleMax : Double := .finite Double.maxFinite

/-- The static `DrawPage::scaleRange` (lines 54–55); the step is the double nearest to 0.1. -/
def scaleRange : Constraints :=
  { LowerBound := Precision.Confusion
    UpperBound := doubleMax
    StepSize := .finite (3602879701896397 / 36028797018963968) }

/-- Whether a value lies within a constraint range, bounds included. -/
def Constraints.contains (c : Constraints) (x : Double) : Bool :=
  Double.le c.LowerBound x && Double.le x c.UpperBound

/-- Type name of `App::PropertyFloat`, as `getTypeId().getName()` gives it. -/
def propertyFloatName : String := "App::PropertyFloat"

/-- The method `DrawPage::handleChangedPropertyType` (lines 465–482). `fileValue` is the value
that `tmp.Restore(reader)` reads from the file. -/
def handleChangedPropertyType (s : Doc) (fileValue : Double) (TypeName : String)
    (prop : Property) : Doc :=
  if prop = .Scale then
    if propertyFloatName = TypeName then
      let tmpValue := fileValue
      if Double.lt (.finite 0) tmpValue then
        setScale s tmpValue
      else
        setScale s (.finite 1)
    else
      s
  else
    s

/-! ## Specification-side definitions -/

/-- The segment that one entry of `Views` contributes to `getAllViews`, in the words of the
specification: the entry is replaced by its linked object if it is a link; then nothing for an
object that is not a view, the object followed by the group's own views for a projection group,
and just the object for any other view. -/
def allViewsSegment (objs : ObjId → DocumentObject) (entry : ObjId) : List ObjId :=
  let o := if (objs entry).typeId.isDerivedFrom .Link then (objs entry).linkedObject else entry
  if (objs o).typeId.isDerivedFrom .DrawProjGroup then o :: (objs o).Views
  else if (objs o).typeId.isDerivedFrom .DrawView then [o]
  else []

/-- Is the object a `DrawViewPart`? -/
def isPart (objs : ObjId → DocumentObject) (o : ObjId) : Bool :=
  (objs o).typeId.isDerivedFrom .DrawViewPart

/-- Is the object a `DrawView`? -/
def isView (objs : ObjId → DocumentObject) (o : ObjId) : Bool :=
  (objs o).typeId.isDerivedFrom .DrawView

/-- The calls that the specification expects of `updateAllViews` for a list of views: the part
views recomputed in list order, then every other view, in list order, with its keep-updated
override set just before its recompute. -/
def expectedUpdateCalls (objs : ObjId → DocumentObject) (featViews : List ObjId) : List Call :=
  (featViews.filter (isPart objs)).map Call.recomputeFeature
    ++ (featViews.filter (fun v => isView objs v && !isPart objs v)).flatMap
        (fun v => [Call.overrideKeepUpdated v true, Call.recomputeFeature v])

/-- The objects of the `recomputeFeature` calls of a log, in order. -/
def recomputed (cs : List Call) : List ObjId :=
  cs.filterMap (fun c => match c with
    | .recomputeFeature o => some o
    | _ => none)

/-- The non-null `DrawView`s of an in-list, in in-list order. -/
def viewChildren (objs : ObjId → DocumentObject) (inList : List (Option ObjId)) : List ObjId :=
  inList.filterMap (fun dep => dep.filter (isView objs))

/-- The segment that one entry of `Views` contributes to `getViews`, as the specification words
it: a non-link entry contributes itself if it is a view and nothing otherwise; a link entry
contributes its linked object (if that is a view, else nothing) followed by every non-null view
of the linked object's in-list. -/
def viewsSegmentStated (objs : ObjId → DocumentObject) (entry : ObjId) : List ObjId :=
  if (objs entry).typeId.isDerivedFrom .Link then
    (if isView objs (objs entry).linkedObject then [(objs entry).linkedObject] else [])
      ++ viewChildren objs (objs (objs entry).linkedObject).inList
  else if isView objs entry then [entry]
  else []

/-- The segment that one entry of `Views` contributes to `getViews`, amended: a link entry whose
linked object is not a view contributes nothing at all. -/
def viewsSegment (objs : ObjId → DocumentObject) (entry : ObjId) : List ObjId :=
  if (objs entry).typeId.isDerivedFrom .Link then
    if isView objs (objs entry).linkedObject then
      (objs entry).linkedObject :: viewChildren objs (objs (objs entry).linkedObject).inList
    else []
  else if isView objs entry then [entry]
  else []

/-- A page without template, with the given views, outside restore. -/
def pageWith (views : List ObjId) : DrawPage :=
  { DrawPage.new true 0 (.finite 1) with Views := views }

/-- Objects: 0 is a link to 1, a plain document object (the source shape) that is no view; the
in-list of 1 holds the link and 2, a part view that projects 1. -/
def linkedSourceObjs : ObjId → DocumentObject
  | 0 => { typeId := .Link, linkedObject := 1, nameInDocument := "Link" }
  | 1 => { typeId := .DocumentObject, inList := [some 0, some 2], nameInDocument := "Body" }
  | 2 => { typeId := .DrawViewPart, nameInDocument := "View" }
  | _ => {}

/-- A page whose only entry is the link 0 of `linkedSourceObjs`. -/
def linkedSourceDoc : Doc :=
  { page := pageWith [0], objs := linkedSourceObjs, calls := [] }

/-- Objects: 0 is a link to 1, a part view; the in-list of 1 holds the link and 2, a dimension
placed on the view 1; 3 is a balloon. -/
def linkedViewObjs : ObjId → DocumentObject
  | 0 => { typeId := .Link, linkedObject := 1, nameInDocument := "Link" }
  | 1 => { typeId := .DrawViewPart, inList := [some 0, some 2], nameInDocument := "View" }
  | 2 => { typeId := .DrawViewDimension, nameInDocument := "Dimension" }
  | 3 => { typeId := .DrawViewBalloon, nameInDocument := "Balloon" }
  | _ => {}

/-- A page whose only entry is the link 0 of `linkedViewObjs`. -/
def linkedViewDoc : Doc :=
  { page := pageWith [0], objs := linkedViewObjs, calls := [] }

/-- A page of `linkedViewObjs` without links: the view 1, the balloon 3 and the object 7. -/
def plainViewsDoc : Doc :=
  { page := pageWith [1, 7, 3], objs := linkedViewObjs, calls := [] }

/-- The template of the page: the `Template` link when it is not null and points to a
`DrawTemplate`, nothing otherwise. -/
def pageTemplate (s : Doc) : Option ObjId :=
  match s.page.Template with
  | some obj => if (s.objs obj).typeId.isDerivedFrom .DrawTemplate then some obj else none
  | none => none

/-- Objects: 5 is an A4 landscape template, 6 is a template without size, 1 is a part view. -/
def sheetObjs : ObjId → DocumentObject
  | 1 => { typeId := .DrawViewPart, nameInDocument := "View" }
  | 5 => { typeId := .DrawTemplate, Width := 297, Height := 210, Orientation := 1,
           OrientationText := "Landscape", nameInDocument := "Template" }
  | 6 => { typeId := .DrawTemplate, nameInDocument := "Template001" }
  | _ => {}

/-- A page on the A4 template of `sheetObjs`, without views. -/
def sheetDoc : Doc :=
  { page := { DrawPage.new true 0 (.finite 1) with Template := some 5 }, objs := sheetObjs,
    calls := [] }

/-- A page under restore whose counter stands at 7. -/
def restoringDoc : Doc :=
  { page := { DrawPage.new true 0 (.finite 2) with restoring := true, NextBalloonIndex := 7 },
    objs := sheetObjs, calls := [] }

/-- The largest value of an `int`. -/
def intMax : Int := 2147483647

/-- The smallest value of an `int`. -/
def intMin : Int := -2147483648

/-- The entries that `removeView` keeps: those that still have a document and whose name in the
document differs from the name of the removed object. -/
def keptBy (objs : ObjId → DocumentObject) (docObj : ObjId) (view : ObjId) : Bool :=
  (objs view).document.isSome
    && decide ((objs view).nameInDocument ≠ (objs docObj).nameInDocument)

/-- Whether `removeView` refuses the object: it is neither a view nor a link, or it has no
document, or it is not attached to a document. -/
def removeRefused (objs : ObjId → DocumentObject) (docObj : ObjId) : Bool :=
  (!(objs docObj).typeId.isDerivedFrom .DrawView && !(objs docObj).typeId.isDerivedFrom .Link)
    || (objs docObj).document.isNone
    || !(objs docObj).attached

/-- Objects of two documents: 0 is the part view "View" of document 0, 1 is the part view "View"
of document 1, 2 is the dimension "Dimension" of document 1. -/
def twoDocumentObjs : ObjId → DocumentObject
  | 0 => { typeId := .DrawViewPart, document := some 0, nameInDocument := "View" }
  | 1 => { typeId := .DrawViewPart, document := some 1, nameInDocument := "View" }
  | 2 => { typeId := .DrawViewDimension, document := some 1, nameInDocument := "Dimension" }
  | _ => {}

/-- A page that shows the view 1 and the dimension 2 of `twoDocumentObjs`. -/
def twoDocumentDoc : Doc :=
  { page := pageWith [1, 2], objs := twoDocumentObjs, calls := [] }

/-- Objects of one document: 0 is the part view "View"; 1 is a dimension that has been detached
from the document (it has no name any more) but still points to it. -/
def detachedObjs : ObjId → DocumentObject
  | 0 => { typeId := .DrawViewPart, document := some 0, nameInDocument := "View" }
  | 1 => { typeId := .DrawViewDimension, document := some 0, attached := false }
  | _ => {}

/-- A page whose `Views` still lists the detached dimension of `detachedObjs`. -/
def detachedDoc : Doc :=
  { page := pageWith [0, 1], objs := detachedObjs, calls := [] }

/-- Whether the loop of the `Scale` branch of `onChanged` rewrites the scale of `u` when it
meets it: `u` is a view whose `ScaleType` is "Page" and for which the test of line 121 holds. -/
def needsRescale (s : Doc) (u : ObjId) : Bool :=
  isView s.objs u
    && decide ((s.objs u).ScaleType = "Page")
    && scaleDiffers (s.objs u).Scale s.page.Scale

/-- Objects: 1 is a part view at scale 1 that follows the page scale, 2 is a part view at its
own scale 5, 5 is an A4 template. -/
def scaledObjs : ObjId → DocumentObject
  | 1 => { typeId := .DrawViewPart, Scale := .finite 1, ScaleType := "Page",
           nameInDocument := "View" }
  | 2 => { typeId := .DrawViewPart, Scale := .finite 5, ScaleType := "Custom",
           nameInDocument := "View001" }
  | 5 => { typeId := .DrawTemplate, Width := 297, Height := 210, nameInDocument := "Template" }
  | _ => {}

/-- A page at scale 2 with the two views of `scaledObjs`, outside restore. -/
def scaledDoc : Doc :=
  { page := { DrawPage.new true 0 (.finite 2) with Views := [1, 2], Template := some 5 },
    objs := scaledObjs, calls := [] }

/-- The scale 2⁻²³ − 2⁻⁷⁶, the double just below the float epsilon. -/
def belowEpsilon : ℚ := 9007199254740991 / 75557863725914323419136

/-- The scale 2⁻²², twice the float epsilon. -/
def twiceEpsilon : ℚ := 1 / 4194304

/-- Objects: 1 is a part view that follows the page scale and stands at 2⁻²³ − 2⁻⁷⁶. -/
def tieObjs : ObjId → DocumentObject
  | 1 => { typeId := .DrawViewPart, Scale := .finite belowEpsilon, ScaleType := "Page",
           nameInDocument := "View" }
  | _ => {}

/-- A page at scale 2⁻²² with the view of `tieObjs`, outside restore. -/
def tieDoc : Doc :=
  { page := { DrawPage.new true 0 (.finite twiceEpsilon) with Views := [1] },
    objs := tieObjs, calls := [] }

/-- Whether `addView` accepts the object: it is a view, or a link whose linked object is a
view. -/
def addViewAccepts (objs : ObjId → DocumentObject) (docObj : ObjId) : Bool :=
  isView objs docObj
    || ((objs docObj).typeId.isDerivedFrom .Link && isView objs (objs docObj).linkedObject)

/-- The view behind an accepted object: the object itself if it is a view, else the linked
object. -/
def viewBehind (objs : ObjId → DocumentObject) (docObj : ObjId) : ObjId :=
  if isView objs docObj then docObj else (objs docObj).linkedObject

/-- Centring applies: `setPosition` is true, the view claims no parent, and the passed object is
neither a dimension nor a balloon. -/
def centringApplies (objs : ObjId → DocumentObject) (docObj : ObjId) (setPosition : Bool) :
    Prop :=
  setPosition = true
    ∧ (objs (viewBehind objs docObj)).claimParent = none
    ∧ (objs docObj).typeId.isDerivedFrom .DrawViewDimension = false
    ∧ (objs docObj).typeId.isDerivedFrom .DrawViewBalloon = false

instance (objs : ObjId → DocumentObject) (docObj : ObjId) (setPosition : Bool) :
    Decidable (centringApplies objs docObj setPosition) := by
  unfold centringApplies
  infer_instance

/-- Objects: 0 is a link to the part view 1, 2 is a dimension, 5 is an A4 template, 9 is a plain
document object. -/
def addedObjs : ObjId → DocumentObject
  | 0 => { typeId := .Link, linkedObject := 1, nameInDocument := "Link" }
  | 1 => { typeId := .DrawViewPart, X := 10, Y := 20, nameInDocument := "View" }
  | 2 => { typeId := .DrawViewDimension, X := 3, Y := 4, nameInDocument := "Dimension" }
  | 5 => { typeId := .DrawTemplate, Width := 297, Height := 210, nameInDocument := "Template" }
  | _ => {}

/-- A page on the A4 template of `addedObjs` that already shows the dimension 2. -/
def addedDoc : Doc :=
  { page := { DrawPage.new true 0 (.finite 1) with Views := [2], Template := some 5 },
    objs := addedObjs, calls := [] }

/-- A fit test that every view passes. -/
def alwaysFits : Doc → ObjId → Bool :=
  fun _ _ => true

/-! ## getAllViews and updateAllViews (C2, C1) -/

theorem foldl_eq_append_flatMap {α β : Type} (f : List β → α → List β) (g : α → List β)
    (h : ∀ acc v, f acc v = acc ++ g v) (l : List α) (acc : List β) :
    l.foldl f acc = acc ++ l.flatMap g := by
  induction l generalizing acc with
  | nil => simp
  | cons v l ih => simp [List.foldl_cons, ih, h, List.flatMap_cons]

theorem part_isDerivedFrom_view (t : TypeId) (h : t.isDerivedFrom .DrawViewPart = true) :
    t.isDerivedFrom .DrawView = true := by
  cases t <;> revert h <;> decide

theorem group_isDerivedFrom_view (t : TypeId) (h : t.isDerivedFrom .DrawProjGroup = true) :
    t.isDerivedFrom .DrawView = true := by
  cases t <;> revert h <;> decide

theorem getAllViewsBody_eq (objs : ObjId → DocumentObject) (acc : List ObjId) (v : ObjId) :
    getAllViewsBody objs acc v = acc ++ allViewsSegment objs v := by
  unfold getAllViewsBody allViewsSegment
  by_cases hl : (objs v).typeId.isDerivedFrom .Link = true
  · by_cases hg : (objs (objs v).linkedObject).typeId.isDerivedFrom .DrawProjGroup = true
    · simp [hl, hg, group_isDerivedFrom_view _ hg]
    · by_cases hv : (objs (objs v).linkedObject).typeId.isDerivedFrom .DrawView = true
      · simp [hl, hg, hv]
      · simp [hl, hg, hv]
  · by_cases hg : (objs v).typeId.isDerivedFrom .DrawProjGroup = true
    · simp [hl, hg, group_isDerivedFrom_view _ hg]
    · by_cases hv : (objs v).typeId.isDerivedFrom .DrawView = true
      · simp [hl, hg, hv]
      · simp [hl, hg, hv]

theorem updateParts_foldl (l : List ObjId) (s : Doc) :
    l.foldl updatePartsBody s
      = { s with calls := s.calls ++ (l.filter (isPart s.objs)).map Call.recomputeFeature } := by
  induction l generalizing s with
  | nil => simp
  | cons v l ih =>
    rw [List.foldl_cons, ih]
    by_cases hp : (s.objs v).typeId.isDerivedFrom .DrawViewPart = true
    · simp [updatePartsBody, freecad_cast, hp, Doc.call, isPart, List.filter_cons]
    · simp [updatePartsBody, freecad_cast, hp, isPart, List.filter_cons]

theorem updateRest_foldl (l : List ObjId) (s : Doc) :
    l.foldl updateRestBody s
      = { s with
          calls := s.calls ++ (l.filter (fun v => isView s.objs v && !isPart s.objs v)).flatMap
            (fun v => [Call.overrideKeepUpdated v true, Call.recomputeFeature v]) } := by
  induction l generalizing s with
  | nil => simp
  | cons v l ih =>
    rw [List.foldl_cons, ih]
    by_cases hp : (s.objs v).typeId.isDerivedFrom .DrawViewPart = true
    · simp [updateRestBody, freecad_cast, hp, isPart, List.filter_cons]
    · by_cases hv : (s.objs v).typeId.isDerivedFrom .DrawView = true
      · simp [updateRestBody, freecad_cast, hp, hv, Doc.call, isPart, isView, List.filter_cons,
          List.flatMap_cons]
      · simp [updateRestBody, freecad_cast, hp, hv, isPart, isView, List.filter_cons]

theorem updateAllViews_eq (s : Doc) :
    updateAllViews s
      = { s with calls := s.calls ++ expectedUpdateCalls s.objs (getAllViews s) } := by
  unfold updateAllViews
  simp only [updateParts_foldl, updateRest_foldl, expectedUpdateCalls, List.append_assoc]

theorem recomputed_append (a b : List Call) :
    recomputed (a ++ b) = recomputed a ++ recomputed b := by
  simp [recomputed, List.filterMap_append]

theorem recomputed_parts (l : List ObjId) : recomputed (l.map Call.recomputeFeature) = l := by
  induction l with
  | nil => rfl
  | cons v l ih =>
    have h := ih
    unfold recomputed at h ⊢
    simp [List.filterMap_cons, h]

theorem recomputed_rest (l : List ObjId) :
    recomputed (l.flatMap (fun v => [Call.overrideKeepUpdated v true, Call.recomputeFeature v]))
      = l := by
  induction l with
  | nil => rfl
  | cons v l ih =>
    rw [List.flatMap_cons, recomputed_append, ih]
    simp [recomputed, List.filterMap_cons]

theorem recomputed_expected (objs : ObjId → DocumentObject) (l : List ObjId) :
    recomputed (expectedUpdateCalls objs l)
      = l.filter (isPart objs) ++ l.filter (fun v => isView objs v && !isPart objs v) := by
  unfold expectedUpdateCalls
  rw [recomputed_append, recomputed_parts, recomputed_rest]

/-- C2: for every state, `getAllViews` is the concatenation, in `Views` order, of one segment
per entry: the entry is first replaced by its linked object if it is a link, then contributes
nothing if it is not a `DrawView`, itself if it is a `DrawView` other than a projection group, and
itself followed by the group's own `Views` (unexpanded, in the group's order) if it is a
projection group. The method is a total function of the state that yields a list only, so the
`Views` property is untouched. -/
theorem getAllViews_eq_flatMap_segments (s : Doc) :
    getAllViews s = s.page.Views.flatMap (allViewsSegment s.objs) := by
  unfold getAllViews
  rw [foldl_eq_append_flatMap _ _ (getAllViewsBody_eq s.objs)]
  simp

/-- C1: `updateAllViews` changes nothing but the call log, to which it appends exactly: a
`recomputeFeature` for each `DrawViewPart` of `getAllViews()` in list order, followed, for each
remaining `DrawView` of `getAllViews()` in list order, by `overrideKeepUpdated(true)` and then
`recomputeFeature`. Hence the recomputed objects are the parts followed by the non-part views,
each object is recomputed as many times as it occurs in the list if it is a `DrawView`, and never
if it is not. -/
theorem updateAllViews_two_phase (s : Doc) :
    (updateAllViews s).page = s.page
    ∧ (updateAllViews s).objs = s.objs
    ∧ (updateAllViews s).calls = s.calls ++ expectedUpdateCalls s.objs (getAllViews s)
    ∧ recomputed (expectedUpdateCalls s.objs (getAllViews s))
        = (getAllViews s).filter (isPart s.objs)
          ++ (getAllViews s).filter (fun v => isView s.objs v && !isPart s.objs v)
    ∧ ∀ o : ObjId,
        (recomputed (expectedUpdateCalls s.objs (getAllViews s))).count o
          = if isView s.objs o then (getAllViews s).count o else 0 := by
  refine ⟨by rw [updateAllViews_eq], by rw [updateAllViews_eq], by rw [updateAllViews_eq],
    recomputed_expected _ _, ?_⟩
  intro o
  rw [recomputed_expected, List.count_append]
  by_cases hp : isPart s.objs o = true
  · have hv : isView s.objs o = true := part_isDerivedFrom_view _ hp
    have h1 : ((getAllViews s).filter (isPart s.objs)).count o = (getAllViews s).count o :=
      List.count_filter hp
    have h2 : ((getAllViews s).filter
        (fun v => isView s.objs v && !isPart s.objs v)).count o = 0 :=
      List.count_eq_zero_of_not_mem (by simp [List.mem_filter, hp])
    rw [h1, h2, if_pos hv, Nat.add_zero]
  · have h1 : ((getAllViews s).filter (isPart s.objs)).count o = 0 :=
      List.count_eq_zero_of_not_mem (by simp [List.mem_filter, hp])
    by_cases hv : isView s.objs o = true
    · have h2 : ((getAllViews s).filter
          (fun v => isView s.objs v && !isPart s.objs v)).count o = (getAllViews s).count o :=
        List.count_filter (by simp [hv, hp])
      rw [h1, h2, if_pos hv, Nat.zero_add]
    · have h2 : ((getAllViews s).filter
          (fun v => isView s.objs v && !isPart s.objs v)).count o = 0 :=
        List.count_eq_zero_of_not_mem (by simp [List.mem_filter, hv])
      rw [h1, h2, if_neg hv]

/-! ## getViews (C3, C9) -/

theorem getViewsChild_foldl (objs : ObjId → DocumentObject) (inList : List (Option ObjId))
    (acc : List ObjId) :
    inList.foldl (getViewsChild objs) acc = acc ++ viewChildren objs inList := by
  induction inList generalizing acc with
  | nil => simp [viewChildren]
  | cons dep l ih =>
    rw [List.foldl_cons, ih]
    cases dep with
    | none => simp [getViewsChild, viewChildren, List.filterMap_cons]
    | some d =>
      by_cases hv : (objs d).typeId.isDerivedFrom .DrawView = true
      · simp [getViewsChild, viewChildren, List.filterMap_cons, Option.filter, isView, hv]
      · simp [getViewsChild, viewChildren, List.filterMap_cons, Option.filter, isView, hv]

theorem getViewsBody_eq (objs : ObjId → DocumentObject) (acc : List ObjId) (v : ObjId) :
    getViewsBody objs acc v = acc ++ viewsSegment objs v := by
  unfold getViewsBody viewsSegment
  by_cases hl : (objs v).typeId.isDerivedFrom .Link = true
  · by_cases hv : (objs (objs v).linkedObject).typeId.isDerivedFrom .DrawView = true
    · simp [hl, hv, isView, getViewsChild_foldl]
    · simp [hl, hv, isView]
  · by_cases hv : (objs v).typeId.isDerivedFrom .DrawView = true
    · simp [hl, hv, isView]
    · simp [hl, hv, isView]

theorem mem_viewChildren (objs : ObjId → DocumentObject) (inList : List (Option ObjId))
    (o : ObjId) (h : o ∈ viewChildren objs inList) : isView objs o = true := by
  unfold viewChildren at h
  rw [List.mem_filterMap] at h
  obtain ⟨dep, _, hdep⟩ := h
  cases dep with
  | none => simp [Option.filter] at hdep
  | some d =>
    by_cases hv : isView objs d = true
    · simp [Option.filter, hv] at hdep
      rw [← hdep]; exact hv
    · simp [Option.filter, hv] at hdep

theorem mem_viewsSegment (objs : ObjId → DocumentObject) (v o : ObjId)
    (h : o ∈ viewsSegment objs v) : isView objs o = true := by
  unfold viewsSegment at h
  by_cases hl : (objs v).typeId.isDerivedFrom .Link = true
  · by_cases hv : isView objs (objs v).linkedObject = true
    · simp only [hl, hv, if_true, List.mem_cons] at h
      rcases h with h | h
      · rw [h]; exact hv
      · exact mem_viewChildren _ _ _ h
    · simp [hl, hv] at h
  · by_cases hv : isView objs v = true
    · simp [hl, hv] at h
      rw [h]; exact hv
    · simp [hl, hv] at h

/-- C3, as stated, fails: the page holds one link whose linked object is not a view while a part
view sits in the in-list of that object; `getViews` returns nothing, the stated segments give
the part view. -/
theorem getViews_stated_segments_fail :
    getViews linkedSourceDoc = []
    ∧ linkedSourceDoc.page.Views.flatMap (viewsSegmentStated linkedSourceDoc.objs) = [2]
    ∧ getViews linkedSourceDoc
        ≠ linkedSourceDoc.page.Views.flatMap (viewsSegmentStated linkedSourceDoc.objs) := by
  decide

/-- C3, amended: `getViews` is the concatenation, in `Views` order, of one segment per entry,
where a non-link entry contributes itself if it is a `DrawView` and nothing otherwise, and a link
entry contributes nothing if its linked object is not a `DrawView`, and otherwise its linked
object followed by every non-null `DrawView` of the linked object's in-list, in in-list order.
Consequently every element of the result is a `DrawView`, and when `Views` holds no link the
result is `Views` filtered to `DrawView`s, order preserved. -/
theorem getViews_eq_flatMap_segments (s : Doc) :
    getViews s = s.page.Views.flatMap (viewsSegment s.objs)
    ∧ (∀ o ∈ getViews s, isView s.objs o = true)
    ∧ ((∀ v ∈ s.page.Views, (s.objs v).typeId.isDerivedFrom .Link = false)
        → getViews s = s.page.Views.filter (isView s.objs)) := by
  have h : getViews s = s.page.Views.flatMap (viewsSegment s.objs) := by
    unfold getViews
    rw [foldl_eq_append_flatMap _ _ (getViewsBody_eq s.objs)]
    simp
  refine ⟨h, ?_, ?_⟩
  · intro o ho
    rw [h, List.mem_flatMap] at ho
    obtain ⟨v, _, hv⟩ := ho
    exact mem_viewsSegment _ _ _ hv
  · intro hno
    rw [h]
    generalize s.page.Views = l at hno
    induction l with
    | nil => rfl
    | cons v l ih =>
      have hv : (s.objs v).typeId.isDerivedFrom .Link = false := hno v (List.mem_cons_self _ _)
      have hl := ih (fun w hw => hno w (List.mem_cons_of_mem _ hw))
      rw [List.flatMap_cons, hl, List.filter_cons]
      by_cases hw : isView s.objs v = true
      · simp [viewsSegment, hv, hw]
      · simp [viewsSegment, hv, hw]

/-- C3, amended, on a page without links: the views 1 and 3 are kept, the object 7 is dropped. -/
theorem getViews_eq_flatMap_segments_witness :
    (∀ v ∈ plainViewsDoc.page.Views, (plainViewsDoc.objs v).typeId.isDerivedFrom .Link = false)
    ∧ getViews plainViewsDoc = [1, 3]
    ∧ getViews plainViewsDoc = plainViewsDoc.page.Views.filter (isView plainViewsDoc.objs) :=
  ⟨by decide, by decide, (getViews_eq_flatMap_segments plainViewsDoc).2.2 (by decide)⟩

/-- C9, the code at the failing input: the page holds a link to a part view that carries a
dimension; `getViews` reports the dimension, `getAllViews` does not hold it, and
`updateAllViews` never recomputes it. -/
theorem getAllViews_misses_link_children :
    getViews linkedViewDoc = [1, 2]
    ∧ getAllViews linkedViewDoc = [1]
    ∧ 2 ∈ getViews linkedViewDoc
    ∧ 2 ∉ getAllViews linkedViewDoc
    ∧ (updateAllViews linkedViewDoc).calls = [Call.recomputeFeature 1] := by
  decide

/-! ## What onChanged leaves alone; template getters (C6) -/

theorem toInt32_of_range (x : Int) (hlo : intMin ≤ x) (hhi : x ≤ intMax) : toInt32 x = x := by
  unfold intMin at hlo
  unfold intMax at hhi
  unfold toInt32
  omega

theorem scaleTouch_foldl_page (l : List ObjId) (s : Doc) :
    (l.foldl scaleTouchBody s).page = s.page ∧ (l.foldl scaleTouchBody s).calls = s.calls := by
  induction l generalizing s with
  | nil => exact ⟨rfl, rfl⟩
  | cons v l ih =>
    rw [List.foldl_cons]
    have h : (scaleTouchBody s v).page = s.page ∧ (scaleTouchBody s v).calls = s.calls := by
      unfold scaleTouchBody
      split
      · split
        · split
          · exact ⟨rfl, rfl⟩
          · exact ⟨rfl, rfl⟩
        · exact ⟨rfl, rfl⟩
      · exact ⟨rfl, rfl⟩
    exact ⟨(ih _).1.trans h.1, (ih _).2.trans h.2⟩

theorem projectionTouch_foldl_page (l : List ObjId) (s : Doc) :
    (l.foldl projectionTouchBody s).page = s.page
    ∧ (l.foldl projectionTouchBody s).objs = s.objs := by
  induction l generalizing s with
  | nil => exact ⟨rfl, rfl⟩
  | cons v l ih =>
    rw [List.foldl_cons]
    have h : (projectionTouchBody s v).page = s.page
        ∧ (projectionTouchBody s v).objs = s.objs := by
      unfold projectionTouchBody
      split
      · split
        · exact ⟨rfl, rfl⟩
        · exact ⟨rfl, rfl⟩
      · exact ⟨rfl, rfl⟩
    exact ⟨(ih _).1.trans h.1, (ih _).2.trans h.2⟩

theorem onChanged_page (s : Doc) (prop : Property) : (onChanged s prop).page = s.page := by
  unfold onChanged
  split
  · split
    · rw [updateAllViews_eq]; rfl
    · rfl
  · split
    · rfl
    · split
      · split
        · exact (scaleTouch_foldl_page _ _).1
        · rfl
      · split
        · exact (projectionTouch_foldl_page _ _).1
        · rfl

theorem onChanged_quiet (s : Doc) (prop : Property)
    (h : prop = .Views ∨ prop = .NextBalloonIndex ∨ prop = .Label ∨ prop = .Template) :
    onChanged s prop = s := by
  rcases h with h | h | h | h <;> subst h <;> simp [onChanged]

/-- C6: the four getters `getPageWidth`, `getPageHeight`, `getOrientation` and
`getPageOrientation` throw "Template not set for Page" exactly when the `Template` link is null
or does not point to a `DrawTemplate`, and otherwise return the width, the height and the
orientation (as number, as text) of the template. `hasValidTemplate` is a total boolean: it is true
exactly when the template is a `DrawTemplate` of strictly positive width and height, and then
`getPageWidth` and `getPageHeight` succeed with strictly positive values. -/
theorem template_getters (s : Doc) :
    (pageTemplate s = none →
        getPageWidth s = .error templateNotSet ∧ getPageHeight s = .error templateNotSet
        ∧ getOrientation s = .error templateNotSet
        ∧ getPageOrientation s = .error templateNotSet
        ∧ hasValidTemplate s = false)
    ∧ (∀ t, pageTemplate s = some t →
        s.page.Template = some t
        ∧ getPageWidth s = .ok (s.objs t).Width ∧ getPageHeight s = .ok (s.objs t).Height
        ∧ getOrientation s = .ok (s.objs t).Orientation
        ∧ getPageOrientation s = .ok (s.objs t).OrientationText
        ∧ (hasValidTemplate s = true ↔ 0 < (s.objs t).Width ∧ 0 < (s.objs t).Height))
    ∧ ((∃ e, getPageWidth s = .error e) ↔ pageTemplate s = none)
    ∧ ((∃ e, getPageHeight s = .error e) ↔ pageTemplate s = none)
    ∧ ((∃ e, getOrientation s = .error e) ↔ pageTemplate s = none)
    ∧ ((∃ e, getPageOrientation s = .error e) ↔ pageTemplate s = none)
    ∧ (hasValidTemplate s = true →
        ∃ w h, getPageWidth s = .ok w ∧ getPageHeight s = .ok h ∧ 0 < w ∧ 0 < h) := by
  unfold pageTemplate getPageWidth getPageHeight getOrientation getPageOrientation
    hasValidTemplate
  cases hT : s.page.Template with
  | none => simp
  | some obj =>
    by_cases hd : (s.objs obj).typeId.isDerivedFrom .DrawTemplate = true
    · simp [hd]
    · simp [hd]

/-- C6 on a page with an A4 landscape template. -/
theorem template_getters_witness :
    hasValidTemplate sheetDoc = true
    ∧ ∃ w h, getPageWidth sheetDoc = .ok w ∧ getPageHeight sheetDoc = .ok h ∧ 0 < w ∧ 0 < h :=
  ⟨by simp [hasValidTemplate, sheetDoc, sheetObjs, DrawPage.new, TypeId.isDerivedFrom,
      TypeId.bases],
   (template_getters sheetDoc).2.2.2.2.2.2 (by
      simp [hasValidTemplate, sheetDoc, sheetObjs, DrawPage.new, TypeId.isDerivedFrom,
        TypeId.bases])⟩

/-! ## Balloon counter (C7) -/

theorem getNextBalloonIndex_eq (s : Doc) (hlo : intMin ≤ s.page.NextBalloonIndex)
    (hhi : s.page.NextBalloonIndex < intMax) :
    getNextBalloonIndex s
      = (s.page.NextBalloonIndex,
         { s with page := { s.page with NextBalloonIndex := s.page.NextBalloonIndex + 1 } }) := by
  have h1 : toInt32 s.page.NextBalloonIndex = s.page.NextBalloonIndex :=
    toInt32_of_range _ hlo (le_of_lt hhi)
  have h2 : toInt32 (s.page.NextBalloonIndex + 1) = s.page.NextBalloonIndex + 1 := by
    apply toInt32_of_range
    · unfold intMin at hlo ⊢; omega
    · unfold intMax at hhi ⊢; omega
  unfold getNextBalloonIndex setNextBalloonIndex
  simp only [h1, h2]
  rw [onChanged_quiet _ _ (Or.inr (Or.inl rfl))]

theorem balloonIndices_eq (n : Nat) (s : Doc) (hlo : intMin ≤ s.page.NextBalloonIndex)
    (hhi : s.page.NextBalloonIndex + n ≤ intMax) :
    balloonIndices n s
      = ((List.range n).map (fun i : Nat => s.page.NextBalloonIndex + (i : Int)),
         { s with page := { s.page with NextBalloonIndex := s.page.NextBalloonIndex + n } }) := by
  induction n generalizing s with
  | zero => simp [balloonIndices]
  | succ n ih =>
    have hlt : s.page.NextBalloonIndex < intMax := by
      have : (0 : Int) ≤ (n : Int) := Int.ofNat_nonneg n
      push_cast at hhi
      omega
    have hlo1 : intMin ≤ s.page.NextBalloonIndex + 1 := by omega
    have hhi1 : s.page.NextBalloonIndex + 1 + (n : Int) ≤ intMax := by
      push_cast at hhi
      omega
    unfold balloonIndices
    rw [getNextBalloonIndex_eq s hlo hlt]
    simp only
    rw [ih _ hlo1 hhi1]
    simp only [List.range_succ_eq_map, List.map_cons, List.map_map]
    refine Prod.ext ?_ ?_
    · simp only [Nat.cast_zero, add_zero, List.cons.injEq, true_and]
      apply List.map_congr_left
      intro i _
      simp only [Function.comp, Nat.cast_succ]
      ring
    · simp only [Nat.cast_succ]
      have : s.page.NextBalloonIndex + 1 + (n : Int)
          = s.page.NextBalloonIndex + ((n : Int) + 1) := by
        ring
      rw [this]

/-- C7: `getNextBalloonIndex` is a post-incrementing counter. Absent `int` overflow, a call
returns the value that `NextBalloonIndex` held and leaves the state unchanged but for
`NextBalloonIndex`, which is that value plus one; `n` successive calls from the counter value `k`
return `k, k+1, ..., k+n-1`, without repetition, and leave the counter at `k+n`; on a freshly
constructed page the first call returns 1. -/
theorem getNextBalloonIndex_counter (s : Doc) (n : Nat)
    (hlo : intMin ≤ s.page.NextBalloonIndex) (hhi : s.page.NextBalloonIndex + n ≤ intMax) :
    (1 ≤ n → getNextBalloonIndex s
      = (s.page.NextBalloonIndex,
         { s with page := { s.page with NextBalloonIndex := s.page.NextBalloonIndex + 1 } }))
    ∧ balloonIndices n s
      = ((List.range n).map (fun i : Nat => s.page.NextBalloonIndex + (i : Int)),
         { s with page := { s.page with NextBalloonIndex := s.page.NextBalloonIndex + n } })
    ∧ (balloonIndices n s).1.Nodup
    ∧ (balloonIndices n s).1.length = n
    ∧ ∀ (keep : Bool) (angle : Int) (scale : Double) (objs : ObjId → DocumentObject)
        (calls : List Call),
        (getNextBalloonIndex { page := DrawPage.new keep angle scale, objs := objs,
                               calls := calls }).1 = 1 := by
  refine ⟨?_, balloonIndices_eq n s hlo hhi, ?_, ?_, ?_⟩
  · intro hn
    apply getNextBalloonIndex_eq s hlo
    have : (1 : Int) ≤ (n : Int) := by exact_mod_cast hn
    omega
  · rw [balloonIndices_eq n s hlo hhi]
    apply List.Nodup.map _ (List.nodup_range n)
    intro a b hab
    simpa using hab
  · rw [balloonIndices_eq n s hlo hhi]
    simp
  · intro keep angle scale objs calls
    rfl

/-- C7 at a counter that stands at 7: three calls return 7, 8, 9 and leave the counter at 10. -/
theorem getNextBalloonIndex_counter_witness :
    intMin ≤ restoringDoc.page.NextBalloonIndex
    ∧ restoringDoc.page.NextBalloonIndex + (3 : Nat) ≤ intMax
    ∧ (balloonIndices 3 restoringDoc).1 = [7, 8, 9]
    ∧ (balloonIndices 3 restoringDoc).2.page.NextBalloonIndex = 10 := by
  have h := (getNextBalloonIndex_counter restoringDoc 3 (by decide) (by decide)).2.1
  refine ⟨by decide, by decide, ?_, ?_⟩
  · rw [h]; decide
  · rw [h]; decide

/-! ## removeView (C5) -/

theorem removeViewBody_attached (objs : ObjId → DocumentObject) (docObj view : ObjId)
    (acc : List ObjId) (hd : (objs docObj).attached = true)
    (hv : (objs view).document ≠ none → (objs view).attached = true) :
    removeViewBody objs docObj acc view
      = some (if keptBy objs docObj view = true then acc ++ [view] else acc) := by
  unfold removeViewBody keptBy DocumentObject.getNameInDocument
  cases hdoc : (objs view).document with
  | none => simp
  | some d =>
    have ha : (objs view).attached = true := hv (by rw [hdoc]; simp)
    by_cases hn : (objs docObj).nameInDocument = (objs view).nameInDocument
    · simp [hd, ha, hn]
    · have hn2 : ¬ (objs view).nameInDocument = (objs docObj).nameInDocument :=
        fun h => hn h.symm
      simp [hd, ha, hn, hn2]

theorem removeView_foldlM (objs : ObjId → DocumentObject) (docObj : ObjId) (l acc : List ObjId)
    (hd : (objs docObj).attached = true)
    (hl : ∀ v ∈ l, (objs v).document ≠ none → (objs v).attached = true) :
    l.foldlM (removeViewBody objs docObj) acc = some (acc ++ l.filter (keptBy objs docObj)) := by
  induction l generalizing acc with
  | nil => simp
  | cons v l ih =>
    rw [List.foldlM_cons, removeViewBody_attached objs docObj v acc hd
      (hl v (List.mem_cons_self _ _))]
    simp only [Option.bind_eq_bind, Option.some_bind]
    rw [ih _ (fun w hw => hl w (List.mem_cons_of_mem _ hw)), List.filter_cons]
    by_cases hk : keptBy objs docObj v = true
    · simp [hk]
    · simp [hk]

theorem removeView_eq (s : Doc) (docObj : ObjId) (hr : removeRefused s.objs docObj = false)
    (hl : ∀ v ∈ s.page.Views, (s.objs v).document ≠ none → (s.objs v).attached = true) :
    removeView s docObj
      = some (((s.page.Views.filter (keptBy s.objs docObj)).length : Int),
              { s with page := { s.page with
                  Views := s.page.Views.filter (keptBy s.objs docObj) } }) := by
  unfold removeRefused at hr
  simp only [Bool.or_eq_false_iff, Bool.not_eq_false'] at hr
  obtain ⟨⟨ht, hdoc⟩, ha⟩ := hr
  unfold removeView
  rw [ht]
  cases hd : (s.objs docObj).document with
  | none => rw [hd] at hdoc; simp at hdoc
  | some d =>
    simp only [Bool.false_eq_true, if_false, ha, Bool.not_true]
    rw [removeView_foldlM s.objs docObj _ _ ha hl]
    simp [setViews, onChanged_quiet]

theorem removeView_refused (s : Doc) (docObj : ObjId)
    (hr : removeRefused s.objs docObj = true) : removeView s docObj = some (-1, s) := by
  unfold removeView
  by_cases ht : (!(s.objs docObj).typeId.isDerivedFrom .DrawView
      && !(s.objs docObj).typeId.isDerivedFrom .Link) = true
  · simp [ht]
  · cases hd : (s.objs docObj).document with
    | none => simp [ht]
    | some d =>
      by_cases ha : (s.objs docObj).attached = true
      · unfold removeRefused at hr
        simp [ht, hd, ha] at hr
      · simp [ht, ha]

/-- On a page whose `Views` still lists an entry that has been detached from its document but
still points to it, the loop of `removeView` hands the null name of that entry to
`std::string::compare` (line 306): the loop tests `getDocument()` where lines 295 and 434 test
`isAttachedToDocument()`. -/
theorem removeView_detached_entry_undefined :
    removeRefused detachedDoc.objs 0 = false
    ∧ (detachedDoc.objs 1).document ≠ none
    ∧ (detachedDoc.objs 1).getNameInDocument = none
    ∧ (removeView detachedDoc 0).isNone = true := by
  decide

/-- C5, as stated, fails: the removed object (view 0 of document 0) is not in `Views`, every
entry has a document and is attached to it, yet `removeView` returns 1 and removes the entry 1,
a view of another document that bears the same name in its document. -/
theorem removeView_absent_object_changes_views :
    0 ∉ twoDocumentDoc.page.Views
    ∧ (∀ v ∈ twoDocumentDoc.page.Views,
        (twoDocumentDoc.objs v).document ≠ none ∧ (twoDocumentDoc.objs v).attached = true)
    ∧ (removeView twoDocumentDoc 0).map (fun r => r.1) = some 1
    ∧ (removeView twoDocumentDoc 0).map (fun r => r.2.page.Views) = some [2]
    ∧ (removeView twoDocumentDoc 0).map (fun r => r.2.page.Views)
        ≠ some twoDocumentDoc.page.Views := by
  decide

/-- C5, amended: `removeView` returns -1 and changes nothing if the object is neither a
`DrawView` nor a link, or has no document, or is not attached. Otherwise, when every entry of
`Views` that still has a document is still attached to it, `removeView` returns and only `Views`
changes: it becomes the old `Views` restricted, order preserved, to the entries that still have a
document and whose name differs from the object's name; no entry with the object's name remains,
the result is the new length, at most the old length, and nothing changes when every entry has a
document and no entry bears the object's name. -/
theorem removeView_by_name (s : Doc) (docObj : ObjId) :
    (removeRefused s.objs docObj = true → removeView s docObj = some (-1, s))
    ∧ (removeRefused s.objs docObj = false →
        (∀ v ∈ s.page.Views, (s.objs v).document ≠ none → (s.objs v).attached = true) →
        removeView s docObj
            = some (((s.page.Views.filter (keptBy s.objs docObj)).length : Int),
                    { s with page := { s.page with
                        Views := s.page.Views.filter (keptBy s.objs docObj) } })
        ∧ (∀ v ∈ s.page.Views.filter (keptBy s.objs docObj),
            (s.objs v).nameInDocument ≠ (s.objs docObj).nameInDocument
            ∧ (s.objs v).document ≠ none)
        ∧ ((s.page.Views.filter (keptBy s.objs docObj)).length : Int)
            ≤ (s.page.Views.length : Int)
        ∧ ((∀ v ∈ s.page.Views, (s.objs v).document ≠ none) →
            (∀ v ∈ s.page.Views,
              (s.objs v).nameInDocument ≠ (s.objs docObj).nameInDocument) →
            removeView s docObj = some ((s.page.Views.length : Int), s))) := by
  refine ⟨removeView_refused s docObj, ?_⟩
  intro hr hl
  refine ⟨removeView_eq s docObj hr hl, ?_, ?_, ?_⟩
  · intro v hv
    rw [List.mem_filter] at hv
    have hk := hv.2
    unfold keptBy at hk
    simp only [Bool.and_eq_true, decide_eq_true_eq] at hk
    refine ⟨hk.2, ?_⟩
    intro hnone
    rw [hnone] at hk
    simp at hk
  · exact_mod_cast List.length_filter_le _ _
  · intro hdoc hname
    have hall : s.page.Views.filter (keptBy s.objs docObj) = s.page.Views := by
      rw [List.filter_eq_self]
      intro v hv
      unfold keptBy
      simp only [Bool.and_eq_true, decide_eq_true_eq]
      refine ⟨?_, hname v hv⟩
      cases hd : (s.objs v).document with
      | none => exact absurd hd (hdoc v hv)
      | some d => rfl
    rw [removeView_eq s docObj hr hl, hall]

/-- C5, amended, at a concrete page: removing the dimension 2 from the page `[1, 2]`, whose
entries are attached, returns 1 and leaves `[1]`. -/
theorem removeView_by_name_witness :
    removeRefused twoDocumentDoc.objs 2 = false
    ∧ (∀ v ∈ twoDocumentDoc.page.Views,
        (twoDocumentDoc.objs v).document ≠ none → (twoDocumentDoc.objs v).attached = true)
    ∧ twoDocumentDoc.page.Views.filter (keptBy twoDocumentDoc.objs 2) = [1]
    ∧ removeView twoDocumentDoc 2
        = some
            (((twoDocumentDoc.page.Views.filter (keptBy twoDocumentDoc.objs 2)).length : Int),
             { twoDocumentDoc with page := { twoDocumentDoc.page with
                 Views := twoDocumentDoc.page.Views.filter (keptBy twoDocumentDoc.objs 2) } }) :=
  ⟨by decide, by decide, by decide,
   ((removeView_by_name twoDocumentDoc 2).2 (by decide) (by decide)).1⟩

/-! ## Change of the page scale (C8) -/

/-- The rounding at sample values: 0.1 and 1e-7 go to the nearest double; a value halfway
between two doubles goes to the one with the even last bit, also among the subnormal values and
at the overflow threshold; the difference of the two scales of `tieDoc` rounds to -2⁻²³. -/
theorem roundNearest_samples :
    Double.roundNearest (1 / 10) = .finite (3602879701896397 / 36028797018963968)
    ∧ Double.roundNearest (1 / 10000000) = Precision.Confusion
    ∧ Double.roundNearest (2 ^ 53 + 1) = .finite (2 ^ 53)
    ∧ Double.roundNearest (2 ^ 53 + 3) = .finite (2 ^ 53 + 4)
    ∧ Double.roundNearest (1 / 2 ^ 1075) = .finite 0
    ∧ Double.roundNearest (3 / 2 ^ 1075) = .finite (1 / 2 ^ 1073)
    ∧ Double.roundNearest Double.maxFinite = .finite Double.maxFinite
    ∧ Double.roundNearest (2 ^ 1024 - 2 ^ 970) = .posInf
    ∧ Double.sub (.finite belowEpsilon) (.finite twiceEpsilon) = .finite (-(1 / 8388608)) := by
  decide!

theorem scaleDiffers_self (x : Double) : scaleDiffers x x = false := by
  cases x with
  | finite q =>
    simp [scaleDiffers, Double.sub, Double.roundNearest, Double.abs, Double.lt, floatEpsilon]
  | posInf => rfl
  | negInf => rfl
  | nan => rfl

theorem scaleTouchBody_eq (s : Doc) (v : ObjId) :
    scaleTouchBody s v
      = if needsRescale s v then s.setObj v { s.objs v with Scale := s.page.Scale } else s := by
  unfold scaleTouchBody needsRescale freecad_cast isView
  by_cases hv : (s.objs v).typeId.isDerivedFrom .DrawView = true
  · by_cases ht : (s.objs v).ScaleType = "Page"
    · by_cases he : scaleDiffers (s.objs v).Scale s.page.Scale = true
      · simp [hv, ht, he]
      · simp [hv, ht, he]
    · simp [hv, ht]
  · simp [hv]

theorem needsRescale_congr (s t : Doc) (u : ObjId) (hp : t.page = s.page)
    (ho : t.objs u = s.objs u) : needsRescale t u = needsRescale s u := by
  unfold needsRescale isView
  rw [hp, ho]

theorem scaleTouch_foldl_objs (l : List ObjId) (s : Doc) (u : ObjId) :
    (l.foldl scaleTouchBody s).objs u
      = if u ∈ l ∧ needsRescale s u = true then { s.objs u with Scale := s.page.Scale }
        else s.objs u := by
  induction l generalizing s with
  | nil => simp
  | cons v l ih =>
    rw [List.foldl_cons, ih, scaleTouchBody_eq]
    by_cases hv : needsRescale s v = true
    · rw [if_pos hv]
      by_cases huv : u = v
      · subst huv
        have hnot : needsRescale (s.setObj u { s.objs u with Scale := s.page.Scale }) u
            = false := by
          simp [needsRescale, Doc.setObj, scaleDiffers_self]
        rw [hnot]
        simp [hv, Doc.setObj]
      · have hsame : (s.setObj v { s.objs v with Scale := s.page.Scale }).objs u = s.objs u := by
          simp [Doc.setObj, Function.update, huv]
        have hnr := needsRescale_congr s (s.setObj v { s.objs v with Scale := s.page.Scale }) u
          rfl hsame
        rw [hnr, hsame]
        simp [List.mem_cons, huv, Doc.setObj]
    · rw [if_neg hv]
      by_cases huv : u = v
      · subst huv
        simp [hv]
      · simp [List.mem_cons, huv]

theorem getViews_flatMap (s : Doc) :
    getViews s = s.page.Views.flatMap (viewsSegment s.objs) := by
  unfold getViews
  rw [foldl_eq_append_flatMap _ _ (getViewsBody_eq s.objs)]
  simp

theorem isView_of_mem_getViews (s : Doc) (o : ObjId) (ho : o ∈ getViews s) :
    isView s.objs o = true := by
  rw [getViews_flatMap, List.mem_flatMap] at ho
  obtain ⟨v, _, hv⟩ := ho
  exact mem_viewsSegment _ _ _ hv

theorem onChanged_scale_eq (s : Doc) (h : s.page.restoring = false) :
    onChanged s .Scale = (getViews s).foldl scaleTouchBody s := by
  simp [onChanged, h]

/-- C8, as stated, fails: the page stands at scale 2⁻²² and its view, of scale type "Page", at
2⁻²³ − 2⁻⁷⁶ (both are doubles). The double subtraction rounds the difference, a tie, to exactly
the float epsilon 2⁻²³, so `onChanged` leaves the view alone, although its scale is neither equal
to the page scale nor within the float epsilon of it: the distance is 2⁻²³ + 2⁻⁷⁶. -/
theorem onChanged_scale_leaves_view_beyond_epsilon :
    tieDoc.page.restoring = false
    ∧ 1 ∈ getViews tieDoc
    ∧ (tieDoc.objs 1).ScaleType = "Page"
    ∧ Double.roundNearest belowEpsilon = .finite belowEpsilon
    ∧ Double.roundNearest twiceEpsilon = .finite twiceEpsilon
    ∧ tieDoc.page.Scale = .finite twiceEpsilon
    ∧ ((onChanged tieDoc .Scale).objs 1).Scale = .finite belowEpsilon
    ∧ belowEpsilon ≠ twiceEpsilon
    ∧ ¬ |belowEpsilon - twiceEpsilon| ≤ 1 / 8388608 := by
  decide!

/-- C8, amended: `onChanged` for `Scale` leaves the page itself as it is. Outside restore, every
`DrawView` of `getViews()` whose `ScaleType` is "Page" ends with the page scale, exactly, if the
test of line 121 held for it, and with its old scale otherwise; either way the test of line 121,
the rounded double difference exceeding the float epsilon in absolute value, does not hold for
its final scale. An object whose `ScaleType` is not "Page", or that is not in `getViews()`, keeps
its scale, and no field other than `Scale` changes. Under restore nothing changes. -/
theorem onChanged_scale_touches_page_scaled_views (s : Doc) :
    (onChanged s .Scale).page = s.page
    ∧ (s.page.restoring = true → onChanged s .Scale = s)
    ∧ (s.page.restoring = false → ∀ v : ObjId,
        (v ∈ getViews s → (s.objs v).ScaleType = "Page" →
            ((onChanged s .Scale).objs v).Scale
                = (if scaleDiffers (s.objs v).Scale s.page.Scale = true then s.page.Scale
                   else (s.objs v).Scale)
            ∧ scaleDiffers ((onChanged s .Scale).objs v).Scale s.page.Scale = false)
        ∧ ((s.objs v).ScaleType ≠ "Page" →
            ((onChanged s .Scale).objs v).Scale = (s.objs v).Scale)
        ∧ (v ∉ getViews s → (onChanged s .Scale).objs v = s.objs v)
        ∧ (onChanged s .Scale).objs v
            = { s.objs v with Scale := ((onChanged s .Scale).objs v).Scale }) := by
  refine ⟨onChanged_page s _, ?_, ?_⟩
  · intro h
    simp [onChanged, h]
  · intro h v
    rw [onChanged_scale_eq s h, scaleTouch_foldl_objs]
    refine ⟨?_, ?_, ?_, ?_⟩
    · intro hmem ht
      have hview := isView_of_mem_getViews s v hmem
      by_cases he : scaleDiffers (s.objs v).Scale s.page.Scale = true
      · have hn : needsRescale s v = true := by simp [needsRescale, hview, ht, he]
        rw [if_pos ⟨hmem, hn⟩, if_pos he]
        exact ⟨rfl, scaleDiffers_self _⟩
      · have hn : ¬ needsRescale s v = true := by simp [needsRescale, he]
        rw [if_neg (fun hc => hn hc.2), if_neg he]
        exact ⟨rfl, by simpa using he⟩
    · intro ht
      have hn : ¬ needsRescale s v = true := by simp [needsRescale, ht]
      simp [hn]
    · intro hmem
      simp [hmem]
    · by_cases hc : v ∈ getViews s ∧ needsRescale s v = true
      · rw [if_pos hc]
      · rw [if_neg hc]

/-- C8, amended, on a page at scale 2: the view 1 (scale 1, type "Page") is rewritten to the
page scale, the view 2 (scale 5, type "Custom") keeps its scale. -/
theorem onChanged_scale_touches_page_scaled_views_witness :
    scaledDoc.page.restoring = false
    ∧ 1 ∈ getViews scaledDoc
    ∧ (scaledDoc.objs 1).ScaleType = "Page"
    ∧ scaleDiffers (scaledDoc.objs 1).Scale scaledDoc.page.Scale = true
    ∧ ((onChanged scaledDoc .Scale).objs 1).Scale
        = (if scaleDiffers (scaledDoc.objs 1).Scale scaledDoc.page.Scale = true
           then scaledDoc.page.Scale else (scaledDoc.objs 1).Scale)
    ∧ ((onChanged scaledDoc .Scale).objs 2).Scale = (scaledDoc.objs 2).Scale :=
  ⟨by decide, by decide, by decide, by decide!,
   (((onChanged_scale_touches_page_scaled_views scaledDoc).2.2 (by decide) 1).1
      (by decide) (by decide)).1,
   ((onChanged_scale_touches_page_scaled_views scaledDoc).2.2 (by decide) 2).2.1 (by decide)⟩

/-! ## Restore of a legacy scale (C10) -/

theorem handleChangedPropertyType_page (s : Doc) (fileValue : Double) :
    (handleChangedPropertyType s fileValue propertyFloatName .Scale).page
      = { s.page with
          Scale := if Double.lt (.finite 0) fileValue = true then fileValue else .finite 1 } := by
  unfold handleChangedPropertyType setScale
  by_cases h : Double.lt (.finite 0) fileValue = true
  · simp [h, onChanged_page]
  · simp [h, onChanged_page]

theorem restored_scale_in_range (fileValue : Double) :
    Double.lt (.finite 0)
        (if Double.lt (.finite 0) fileValue = true then fileValue else .finite 1) = true
    ∧ (scaleRange.contains
          (if Double.lt (.finite 0) fileValue = true then fileValue else .finite 1) = true
        ↔ ¬ (Double.lt (.finite 0) fileValue = true
              ∧ Double.lt fileValue Precision.Confusion = true)
          ∧ ¬ Double.lt doubleMax fileValue = true) := by
  have hmax : (0 : ℚ) < Double.maxFinite := by unfold Double.maxFinite; norm_num
  have hone : (944473296573929 / 9444732965739290427392 : ℚ) ≤ 1
      ∧ (1 : ℚ) ≤ Double.maxFinite := by
    unfold Double.maxFinite; norm_num
  cases fileValue with
  | finite q =>
    by_cases hq : 0 < q
    · simp only [Double.lt, Constraints.contains, scaleRange, Precision.Confusion, doubleMax,
        Double.le, hq, decide_True, if_true, Bool.and_eq_true, decide_eq_true_eq, true_and,
        not_lt]
    · have hq' : ¬ Double.maxFinite < q := fun h => hq (lt_trans hmax h)
      simp [Double.lt, Constraints.contains, scaleRange, Precision.Confusion, doubleMax,
        Double.le, hq, hq', hone.1, hone.2]
  | posInf =>
    simp [Double.lt, Constraints.contains, scaleRange, Precision.Confusion, doubleMax, Double.le]
  | negInf =>
    simp [Double.lt, Constraints.contains, scaleRange, Precision.Confusion, doubleMax, Double.le,
      hone.1, hone.2]
  | nan =>
    simp [Double.lt, Constraints.contains, scaleRange, Precision.Confusion, doubleMax, Double.le,
      hone.1, hone.2]

/-- C10, as stated, fails: the file value 2⁻³⁰ (a double, about 9.3e-10) is strictly positive,
so it becomes the page scale as read, below the lower bound `Precision::Confusion()` of
`scaleRange`; and the file value +infinity becomes the page scale as read, above the upper
bound. -/
theorem restored_scale_below_scaleRange :
    Double.roundNearest (1 / 1073741824) = .finite (1 / 1073741824)
    ∧ (handleChangedPropertyType restoringDoc (.finite (1 / 1073741824)) propertyFloatName
        .Scale).page.Scale = .finite (1 / 1073741824)
    ∧ scaleRange.contains
        (handleChangedPropertyType restoringDoc (.finite (1 / 1073741824)) propertyFloatName
          .Scale).page.Scale = false
    ∧ (handleChangedPropertyType restoringDoc .posInf propertyFloatName .Scale).page.Scale
        = .posInf
    ∧ scaleRange.contains
        (handleChangedPropertyType restoringDoc .posInf propertyFloatName .Scale).page.Scale
        = false := by
  rw [handleChangedPropertyType_page, handleChangedPropertyType_page]
  decide!

/-- C10, amended: for the `Scale` property and the file type `App::PropertyFloat`,
`handleChangedPropertyType` sets the page scale to the file value when that is strictly positive
and to 1 otherwise (also when it is not a number), changing no other property of the page; the
resulting scale is always strictly positive, and it lies within `scaleRange` exactly when the
file value is neither strictly between 0 and `Precision::Confusion()` nor above the largest
finite double (that is, +infinity). For any other property, or any other file type, nothing
changes. -/
theorem handleChangedPropertyType_restores_scale (s : Doc) (fileValue : Double)
    (TypeName : String) (prop : Property) :
    (prop = .Scale → TypeName = propertyFloatName →
        (handleChangedPropertyType s fileValue TypeName prop).page
            = { s.page with
                Scale := if Double.lt (.finite 0) fileValue = true then fileValue
                         else .finite 1 }
        ∧ Double.lt (.finite 0)
            (handleChangedPropertyType s fileValue TypeName prop).page.Scale = true
        ∧ (scaleRange.contains
              (handleChangedPropertyType s fileValue TypeName prop).page.Scale = true
            ↔ ¬ (Double.lt (.finite 0) fileValue = true
                  ∧ Double.lt fileValue Precision.Confusion = true)
              ∧ ¬ Double.lt doubleMax fileValue = true))
    ∧ ((prop ≠ .Scale ∨ TypeName ≠ propertyFloatName) →
        handleChangedPropertyType s fileValue TypeName prop = s) := by
  constructor
  · intro hp ht
    subst hp ht
    rw [handleChangedPropertyType_page]
    exact ⟨rfl, (restored_scale_in_range fileValue).1, (restored_scale_in_range fileValue).2⟩
  · intro h
    unfold handleChangedPropertyType
    by_cases hp : prop = .Scale
    · rcases h with h | h
      · exact absurd hp h
      · have h2 : ¬ propertyFloatName = TypeName := fun e => h e.symm
        simp [hp, h2]
    · simp [hp]

/-- C10, amended, at the file values 3, -1 and `Precision::Confusion()` itself: the restored
scales lie within `scaleRange`. -/
theorem handleChangedPropertyType_restores_scale_witness :
    scaleRange.contains
        (handleChangedPropertyType restoringDoc (.finite 3) propertyFloatName .Scale).page.Scale
      = true
    ∧ scaleRange.contains
        (handleChangedPropertyType restoringDoc (.finite (-1)) propertyFloatName
          .Scale).page.Scale = true
    ∧ scaleRange.contains
        (handleChangedPropertyType restoringDoc Precision.Confusion propertyFloatName
          .Scale).page.Scale = true :=
  ⟨((handleChangedPropertyType_restores_scale restoringDoc (.finite 3) propertyFloatName
      .Scale).1 rfl rfl).2.2.mpr (by decide!),
   ((handleChangedPropertyType_restores_scale restoringDoc (.finite (-1)) propertyFloatName
      .Scale).1 rfl rfl).2.2.mpr (by decide!),
   ((handleChangedPropertyType_restores_scale restoringDoc Precision.Confusion propertyFloatName
      .Scale).1 rfl rfl).2.2.mpr (by decide!)⟩

/-! ## addView (C4) -/

theorem addViewTarget_eq (objs : ObjId → DocumentObject) (docObj : ObjId) :
    addViewTarget objs docObj
      = if addViewAccepts objs docObj then some (viewBehind objs docObj) else none := by
  unfold addViewTarget addViewAccepts viewBehind freecad_cast isView
  by_cases hv : (objs docObj).typeId.isDerivedFrom .DrawView = true
  · simp [hv]
  · by_cases hl : (objs docObj).typeId.isDerivedFrom .Link = true
    · by_cases hw : (objs (objs docObj).linkedObject).typeId.isDerivedFrom .DrawView = true
      · simp [hv, hl, hw]
      · simp [hv, hl, hw]
    · simp [hv, hl]

theorem addViewCentres_iff (objs : ObjId → DocumentObject) (docObj : ObjId)
    (setPosition : Bool) :
    addViewCentres objs docObj (viewBehind objs docObj) setPosition = true
      ↔ centringApplies objs docObj setPosition := by
  unfold addViewCentres centringApplies
  simp only [Bool.and_eq_true, Bool.not_eq_true', Option.isNone_iff_eq_none]
  tauto

theorem addView_eq (checkFit : Doc → ObjId → Bool) (s : Doc) (docObj : ObjId)
    (setPosition : Bool) :
    addView checkFit s docObj setPosition
      = if addViewAccepts s.objs docObj = true then
          if addViewCentres s.objs docObj (viewBehind s.objs docObj) setPosition = true then
            match addViewCentre s (viewBehind s.objs docObj) with
            | .error e => .error e
            | .ok s1 => .ok (addViewAppend checkFit s1 docObj (viewBehind s.objs docObj))
          else .ok (addViewAppend checkFit s docObj (viewBehind s.objs docObj))
        else .ok (-1, s) := by
  unfold addView
  rw [addViewTarget_eq]
  by_cases ha : addViewAccepts s.objs docObj = true
  · have hg : (!(s.objs docObj).typeId.isDerivedFrom .DrawView
        && !(s.objs docObj).typeId.isDerivedFrom .Link) = false := by
      unfold addViewAccepts isView at ha
      revert ha
      cases (s.objs docObj).typeId.isDerivedFrom .DrawView <;>
        cases (s.objs docObj).typeId.isDerivedFrom .Link <;> simp
    simp only [hg, ha, if_true, Bool.false_eq_true, if_false]
  · simp only [ha, if_false, Bool.false_eq_true]
    split <;> rfl

theorem getPageWidth_error (s : Doc) (h : pageTemplate s = none) :
    getPageWidth s = .error templateNotSet := by
  unfold pageTemplate at h
  unfold getPageWidth
  cases hT : s.page.Template with
  | none => rfl
  | some obj =>
    rw [hT] at h
    by_cases hd : (s.objs obj).typeId.isDerivedFrom .DrawTemplate = true
    · simp [hd] at h
    · simp [hd]

theorem getPageHeight_setX (s : Doc) (view : ObjId) (x : ℚ) :
    getPageHeight (s.setObj view { s.objs view with X := x }) = getPageHeight s := by
  unfold getPageHeight Doc.setObj
  cases hT : s.page.Template with
  | none => simp [hT]
  | some obj =>
    by_cases ho : obj = view
    · subst ho
      simp [hT, Function.update]
    · simp [hT, Function.update, ho]

theorem addViewCentre_ok (s : Doc) (view : ObjId) (w h : ℚ) (hw : getPageWidth s = .ok w)
    (hh : getPageHeight s = .ok h) :
    ∃ s1, addViewCentre s view = .ok s1 ∧ s1.page = s.page
      ∧ (s1.objs view).X = w / 2 ∧ (s1.objs view).Y = h / 2
      ∧ ∀ o, o ≠ view → s1.objs o = s.objs o := by
  refine ⟨(s.setObj view { s.objs view with X := w / 2 }).setObj view
    { (s.setObj view { s.objs view with X := w / 2 }).objs view with Y := h / 2 }, ?_, rfl, ?_, ?_,
    ?_⟩
  · unfold addViewCentre
    rw [hw]
    simp only [bind, Except.bind]
    rw [getPageHeight_setX, hh]
    rfl
  · simp [Doc.setObj]
  · simp [Doc.setObj]
  · intro o ho
    simp [Doc.setObj, Function.update, ho]

theorem addViewCentre_error (s : Doc) (view : ObjId) (h : pageTemplate s = none) :
    addViewCentre s view = .error templateNotSet := by
  unfold addViewCentre
  rw [getPageWidth_error s h]
  rfl

theorem addViewAppend_spec (checkFit : Doc → ObjId → Bool) (s : Doc) (docObj view : ObjId) :
    (addViewAppend checkFit s docObj view).1 = (s.page.Views.length : Int) + 1
    ∧ (addViewAppend checkFit s docObj view).2.page
        = { s.page with Views := s.page.Views ++ [docObj] }
    ∧ ∀ o, ((addViewAppend checkFit s docObj view).2.objs o).X = (s.objs o).X
        ∧ ((addViewAppend checkFit s docObj view).2.objs o).Y = (s.objs o).Y := by
  unfold addViewAppend setViews
  simp only [onChanged_quiet _ _ (Or.inl rfl)]
  refine ⟨?_, ?_, ?_⟩
  · split <;> simp [Doc.call, Doc.setObj]
  · split <;> simp [Doc.call, Doc.setObj]
  · intro o
    split
    · by_cases ho : o = view
      · subst ho
        simp [Doc.call, Doc.setObj]
      · simp [Doc.call, Doc.setObj, Function.update, ho]
    · simp [Doc.call]

end TechDraw
